import Mathlib

/-!
Shallow embedding of the pyxcp transport layer
(`pyxcp/transport/base.py` and `pyxcp/transport/can.py`)
together with proofs about the behaviour of its operations.

Bytes are modelled as `Nat` (Python ints are unbounded; byte strings become
`List Nat`); queues (`collections.deque`) become `List`s, appended at the
back and popped at the front; exceptions become dedicated error values.
Wall-clock readings (`time.perf_counter`) are passed in as an explicit
`now : Nat` argument, and the blocking/polling loops (`get`,
`block_receive`) are modelled by their queue contents: an empty queue
stands for a timeout window that elapses with no arrival.
-/

namespace PyXcp

/-- Failure modes raised inside `BaseTransport.processResponse`:
`types.FrameSizeError` on a declared-length mismatch and the `IndexError`
Python raises for `response[0]` on an empty byte string. -/
inductive PErr where
  | frameSizeError
  | indexError
  deriving DecidableEq, Repr

/-- Failure modes of the request/receive operations: `types.XcpTimeoutError`,
`types.XcpResponseError` (carrying the error-code byte), and the construct
parse error `types.Response.parse`/`types.XcpError.parse` raise on a PDU that
is too short to classify. -/
inductive XcpErr where
  | timeout
  | protocolError (code : Nat)
  | parseError
  deriving DecidableEq, Repr

/-- A command as seen by the transport layer: an enum member with an integer
value (`cmd.to_bytes(...)`) and a name (`cmd.name`, compared against
`'SYNCH'`). -/
structure Cmd where
  code : Nat
  name : String

/-- The mutable state of a `BaseTransport` instance that the embedded
operations read and write: the two 16-bit sequence counters, the four
category queues, and the DAQ timestamp state (`base.py` lines 82-97). -/
structure XcpState where
  counterSend : Nat
  counterReceived : Nat
  resQueue : List (List Nat)
  evQueue : List (List Nat)
  servQueue : List (List Nat)
  daqQueue : List (List Nat × Nat × Nat × Nat)
  first_daq_timestamp : Option Nat
  create_daq_timestamps : Bool
  deriving DecidableEq, Repr

/-- Fresh transport state as built by `BaseTransport.__init__`. -/
def initState : XcpState :=
  { counterSend := 0
    counterReceived := 0
    resQueue := []
    evQueue := []
    servQueue := []
    daqQueue := []
    first_daq_timestamp := none
    create_daq_timestamps := false }

/-! ## CAN addressing and framing (`pyxcp/transport/can.py`) -/

def CAN_EXTENDED_ID : Nat := 0x80000000

def MAX_11_BIT_IDENTIFIER : Nat := (1 <<< 11) - 1

def MAX_29_BIT_IDENTIFIER : Nat := (1 <<< 29) - 1

/-- `isExtendedIdentifier` (can.py line 50): check for the extended-id
marker bit. -/
def isExtendedIdentifier (identifier : Nat) : Bool :=
  (identifier &&& CAN_EXTENDED_ID) == CAN_EXTENDED_ID

/-- `stripIdentifier` (can.py line 64): Python computes
`identifier & (~CAN_EXTENDED_ID)` on unbounded ints, which clears exactly
the `CAN_EXTENDED_ID` bit and keeps every other bit; on `Nat` that is
subtraction of the bit's contribution. -/
def stripIdentifier (identifier : Nat) : Nat :=
  identifier - (identifier &&& CAN_EXTENDED_ID)

/-- The data carried by a constructed `Identifier` object
(can.py lines 111-120). -/
structure Identifier where
  raw_id : Nat
  id : Nat
  is_extended : Bool
  deriving DecidableEq, Repr

/-- `Identifier.__init__` (can.py lines 111-120): strip the marker bit,
record the extended flag, and range-check the stripped id against the
applicable maximum; `none` models `IdentifierOutOfRangeError`. -/
def Identifier.make (raw_id : Nat) : Option Identifier :=
  let i := stripIdentifier raw_id
  let ext := isExtendedIdentifier raw_id
  if ext then
    if i > MAX_29_BIT_IDENTIFIER then none
    else some { raw_id := raw_id, id := i, is_extended := ext }
  else
    if i > MAX_11_BIT_IDENTIFIER then none
    else some { raw_id := raw_id, id := i, is_extended := ext }

/-- The CAN-FD DLC table of `setDLC` (can.py line 353). -/
def FD_DLCS : List Int := [12, 16, 20, 24, 32, 48, 64]

/-- `setDLC` (can.py lines 347-364). The outer `none` models the
`ValueError` raised for negative or over-64 lengths; the inner value is the
Python return value, where `some d` is a returned DLC and `none` is the
implicit `None` return of a fall-through (unreachable: the loop always finds
a DLC when `8 < length ≤ 64`). -/
def setDLC (length : Int) : Option (Option Int) :=
  if length < 0 then none
  else if length ≤ 8 then some (some length)
  else if length ≤ 64 then some (FD_DLCS.find? (fun dlc => decide (length ≤ dlc)))
  else none

/-- `calculateFilter` (can.py lines 367-379): `functools.reduce` over a
non-empty list is a left fold seeded with the head; `none` models the
`TypeError` `reduce` raises on an empty iterable. -/
def calculateFilter (ids : List Nat) : Option (Nat × Nat) :=
  let any_extended_ids := ids.any (fun i => isExtendedIdentifier i)
  match ids.map stripIdentifier with
  | [] => none
  | r :: rs =>
    let cfilter := rs.foldl (· &&& ·) r
    let cmask0 := (rs.foldl (· ||| ·) r) ^^^ cfilter
    let cmask := cmask0 ^^^ (if any_extended_ids then 0x1FFFFFFF else 0x7ff)
    some (cfilter, cmask)

/-! ## Frame transport engine (`pyxcp/transport/base.py`) -/

/-- Python's `int.bit_length()`. -/
def bit_length (n : Nat) : Nat :=
  if n = 0 then 0 else Nat.log2 n + 1

/-- Python's `x.to_bytes(n, 'big')` as a list of byte values, most
significant first. -/
def to_bytes_be (x : Nat) : Nat → List Nat
  | 0 => []
  | n + 1 => to_bytes_be (x / 256) n ++ [x % 256]

/-- An unsigned 16-bit field in little-endian byte order. -/
def u16le (x : Nat) : List Nat := [x % 256, x / 256 % 256]

/-- Modelled from the spec: `self.HEADER.pack(length, counter)` of the
length-prefixed transports. The concrete `HEADER` objects live in the
stream-transport modules (eth/sxi), which are not among the sources here;
per the spec the header is two unsigned 16-bit fields — the payload length
including the command bytes, then the send counter — with the byte order
fixed per concrete transport (little-endian in the spec's end-to-end
example). -/
def headerPack (length counter : Nat) : List Nat :=
  u16le length ++ u16le counter

/-- `BaseTransport._prepare_request` (base.py lines 166-178): build
`header + cmd.to_bytes(cmdlen, 'big') + data` where
`cmdlen = cmd.bit_length() // 8`, and post-increment the send counter
masked to 16 bits.  Returns the frame and the new `counterSend`. -/
def prepare_request (cmd : Cmd) (data : List Nat) (counterSend : Nat) :
    List Nat × Nat :=
  let cmdlen := bit_length cmd.code / 8
  let header := headerPack (cmdlen + data.length) counterSend
  let counterSend' := (counterSend + 1) &&& 0xffff
  (header ++ to_bytes_be cmd.code cmdlen ++ data, counterSend')

/-- Modelled from the spec: the PID value that `types.Response.parse`
(module `pyxcp.types`, not among the sources) classifies as `'ERR'`; the
spec's ERROR encoding is PID 0xFF followed by one error-code byte. -/
def ERROR_PID : Nat := 0xFF

/-- `BaseTransport.request` (base.py lines 127-145): build and send the
frame, pop the next PDU from the response queue (an empty queue models the
2-second timeout elapsing with no arrival), then classify: an ERROR PID on a
non-SYNCH command raises `XcpResponseError` with the following byte as the
code; otherwise the PDU minus its leading byte is returned. -/
def request (cmd : Cmd) (data : List Nat) (st : XcpState) :
    Except XcpErr (List Nat) × XcpState :=
  let (_frame, counterSend') := prepare_request cmd data st.counterSend
  let st1 := { st with counterSend := counterSend' }
  match st1.resQueue with
  | [] => (.error .timeout, st1)
  | xcpPDU :: rest =>
    let st2 := { st1 with resQueue := rest }
    match xcpPDU with
    | [] => (.error .parseError, st2)
    | pid :: tail =>
      if pid = ERROR_PID ∧ cmd.name ≠ "SYNCH" then
        match tail with
        | [] => (.error .parseError, st2)
        | code :: _ => (.error (.protocolError code), st2)
      else
        (.ok tail, st2)

/-- `BaseTransport.block_request` (base.py lines 147-164): if a response is
already queued, pop and inspect it — an ERROR PID on a non-SYNCH command
raises `XcpResponseError` before anything is sent, any other entry is
discarded; then build and send the frame without waiting for a reply. -/
def block_request (cmd : Cmd) (data : List Nat) (st : XcpState) :
    Except XcpErr Unit × XcpState :=
  match st.resQueue with
  | xcpPDU :: rest =>
    let st1 := { st with resQueue := rest }
    match xcpPDU with
    | [] => (.error .parseError, st1)
    | pid :: tail =>
      if pid = ERROR_PID ∧ cmd.name ≠ "SYNCH" then
        match tail with
        | [] => (.error .parseError, st1)
        | code :: _ => (.error (.protocolError code), st1)
      else
        let (_frame, c') := prepare_request cmd data st1.counterSend
        (.ok (), { st1 with counterSend := c' })
  | [] =>
    let (_frame, c') := prepare_request cmd data st.counterSend
    (.ok (), { st with counterSend := c' })

/-- The loop of `BaseTransport.block_receive` (base.py lines 199-210) over
the successive response-queue entries: while the accumulator is shorter than
`length_required`, pop the next entry and append its payload minus the
leading byte; an exhausted queue models the 1-second timeout elapsing with
no further arrival. -/
def block_receive_go (length_required : Nat) :
    List (List Nat) → List Nat → Except XcpErr (List Nat)
  | [], block_response =>
    if block_response.length < length_required then .error .timeout
    else .ok block_response
  | partial_response :: rest, block_response =>
    if block_response.length < length_required then
      block_receive_go length_required rest
        (block_response ++ partial_response.drop 1)
    else .ok block_response

/-- `BaseTransport.block_receive` (base.py lines 180-210), starting from the
empty accumulator `b''`. -/
def block_receive (length_required : Nat) (resQueue : List (List Nat)) :
    Except XcpErr (List Nat) :=
  block_receive_go length_required resQueue []

/-- `BaseTransport.processResponse` (base.py lines 227-265).
`use_tcp` is the `hasattr(self, 'use_tcp')`-guarded stream flag (absent on
CAN, hence `false` there); `now` is the `perf_counter()` reading taken
during this call.  The received counter is recorded first; length-prefixed
transports then check the declared length; the PDU is classified by its
leading byte into one of the four queues.  The second component is the
exception the Python code raises, if any. -/
def processResponse (use_tcp : Bool) (response : List Nat)
    (length counter now : Nat) (st : XcpState) : XcpState × Option PErr :=
  let st := { st with counterReceived := counter }
  if use_tcp = false ∧ response.length ≠ length then
    (st, some .frameSizeError)
  else
    match response with
    | [] => (st, some .indexError)
    | pid :: _ =>
      if pid ≥ 0xFC then
        if pid ≥ 0xFE then
          ({ st with resQueue := st.resQueue ++ [response] }, none)
        else if pid = 0xFD then
          ({ st with evQueue := st.evQueue ++ [response] }, none)
        else if pid = 0xFC then
          ({ st with servQueue := st.servQueue ++ [response] }, none)
        else
          (st, none)
      else
        let fdt := if st.first_daq_timestamp = none then some now
                   else st.first_daq_timestamp
        let ts := if st.create_daq_timestamps then now else 0
        ({ st with
            daqQueue := st.daqQueue ++ [(response, counter, length, ts)],
            first_daq_timestamp := fdt }, none)

/-- `Can.dataReceived` (can.py lines 316-317): forward the payload to
`processResponse` with the payload's own length and counter 0; the `Can`
class defines no `use_tcp` attribute, so the length check applies (and is
vacuous here). -/
def dataReceived (payload : List Nat) (now : Nat) (st : XcpState) :
    XcpState × Option PErr :=
  processResponse false payload payload.length 0 now st

/-- One iteration of the `Can.listen` loop (can.py lines 319-325) after the
stop-flag check: `canInterface.read()` yields either no frame (`none`) or a
frame whose data is `payload`; a frame is forwarded via `dataReceived`. -/
def listen_step (frame : Option (List Nat)) (now : Nat) (st : XcpState) :
    XcpState × Option PErr :=
  match frame with
  | none => (st, none)
  | some payload => dataReceived payload now st

/-- The state produced by the event-PDU witness run: counter 7 recorded,
the event PDU [0xFD, 1] queued. -/
def eventWitnessState : XcpState :=
  { counterSend := 0, counterReceived := 7, resQueue := [],
    evQueue := [[0xFD, 1]], servQueue := [], daqQueue := [],
    first_daq_timestamp := none, create_daq_timestamps := false }

/-! ## Helper lemmas -/

theorem can_extended_id_eq : CAN_EXTENDED_ID = 2 ^ 31 := by decide

theorem and_ext_eq_zero {x : Nat} (h : x < 2 ^ 31) :
    x &&& CAN_EXTENDED_ID = 0 := by
  rw [can_extended_id_eq]
  apply Nat.eq_of_testBit_eq
  intro b
  simp only [Nat.testBit_and, Nat.zero_testBit, Nat.testBit_two_pow]
  rcases eq_or_ne 31 b with hb | hb
  · subst hb
    simp [Nat.testBit_lt_two_pow h]
  · simp [hb]

theorem isExtended_false_of_lt {x : Nat} (h : x < 2 ^ 31) :
    isExtendedIdentifier x = false := by
  unfold isExtendedIdentifier
  rw [and_ext_eq_zero h]
  decide

theorem strip_of_lt {x : Nat} (h : x < 2 ^ 31) : stripIdentifier x = x := by
  unfold stripIdentifier
  rw [and_ext_eq_zero h]
  omega

theorem lor_ext_eq_add {i : Nat} (h : i < 2 ^ 31) :
    i ||| CAN_EXTENDED_ID = i + 2 ^ 31 := by
  have h2 : 2 ^ 31 * 1 + i = 2 ^ 31 * 1 ||| i := Nat.mul_add_lt_is_or h 1
  rw [Nat.mul_one] at h2
  rw [can_extended_id_eq, Nat.lor_comm, ← h2, Nat.add_comm]

theorem and_ext_of_lor (i : Nat) :
    (i ||| CAN_EXTENDED_ID) &&& CAN_EXTENDED_ID = CAN_EXTENDED_ID := by
  apply Nat.eq_of_testBit_eq
  intro b
  simp only [Nat.testBit_and, Nat.testBit_or]
  cases h : Nat.testBit CAN_EXTENDED_ID b <;> simp [h]

theorem isExtended_true_of_lor (i : Nat) :
    isExtendedIdentifier (i ||| CAN_EXTENDED_ID) = true := by
  simp [isExtendedIdentifier, and_ext_of_lor]

theorem strip_of_lor {i : Nat} (h : i < 2 ^ 31) :
    stripIdentifier (i ||| CAN_EXTENDED_ID) = i := by
  unfold stripIdentifier
  rw [and_ext_of_lor, lor_ext_eq_add h, can_extended_id_eq]
  omega

theorem to_bytes_be_length : ∀ (n : Nat) (x : Nat), (to_bytes_be x n).length = n
  | 0, _ => rfl
  | n + 1, x => by simp [to_bytes_be, to_bytes_be_length n (x / 256)]

theorem log2_238 : Nat.log2 238 = 7 := by
  have h1 : 7 ≤ Nat.log2 238 := (Nat.le_log2 (by decide)).2 (by decide)
  have h2 : Nat.log2 238 < 8 := (Nat.log2_lt (by decide)).2 (by decide)
  omega

theorem and_ffff_eq_mod (n : Nat) : n &&& 0xFFFF = n % 65536 := by
  have h := Nat.and_pow_two_sub_one_eq_mod n 16
  norm_num at h
  exact h

theorem request_counterSend (cmd : Cmd) (data : List Nat) (st : XcpState) :
    ((request cmd data st).2).counterSend = (st.counterSend + 1) &&& 0xFFFF := by
  unfold request prepare_request
  dsimp only
  cases hq : st.resQueue with
  | nil => rfl
  | cons pdu rest =>
    cases pdu with
    | nil => rfl
    | cons pid tail =>
      dsimp only
      by_cases hc : pid = ERROR_PID ∧ cmd.name ≠ "SYNCH"
      · rw [if_pos hc]
        cases tail <;> rfl
      · rw [if_neg hc]

theorem block_request_counterSend (cmd : Cmd) (data : List Nat) (st : XcpState) :
    ((∃ u, (block_request cmd data st).1 = Except.ok u)
        ∧ ((block_request cmd data st).2).counterSend
            = (st.counterSend + 1) &&& 0xFFFF)
    ∨ ((∃ e, (block_request cmd data st).1 = Except.error e)
        ∧ ((block_request cmd data st).2).counterSend = st.counterSend) := by
  unfold block_request prepare_request
  dsimp only
  cases hq : st.resQueue with
  | nil => exact Or.inl ⟨⟨_, rfl⟩, rfl⟩
  | cons pdu rest =>
    cases pdu with
    | nil => exact Or.inr ⟨⟨_, rfl⟩, rfl⟩
    | cons pid tail =>
      dsimp only
      by_cases hc : pid = ERROR_PID ∧ cmd.name ≠ "SYNCH"
      · rw [if_pos hc]
        cases tail with
        | nil => exact Or.inr ⟨⟨_, rfl⟩, rfl⟩
        | cons c t => exact Or.inr ⟨⟨_, rfl⟩, rfl⟩
      · rw [if_neg hc]
        exact Or.inl ⟨⟨_, rfl⟩, rfl⟩

theorem foldl_and_testBit (b : Nat) :
    ∀ (xs : List Nat) (x : Nat),
      (xs.foldl (· &&& ·) x).testBit b
        = (x.testBit b && xs.all (fun y => y.testBit b))
  | [], x => by simp
  | y :: ys, x => by
    rw [List.foldl_cons, foldl_and_testBit b ys (x &&& y)]
    simp [Nat.testBit_and, Bool.and_assoc]

theorem foldl_or_testBit (b : Nat) :
    ∀ (xs : List Nat) (x : Nat),
      (xs.foldl (· ||| ·) x).testBit b
        = (x.testBit b || xs.any (fun y => y.testBit b))
  | [], x => by simp
  | y :: ys, x => by
    rw [List.foldl_cons, foldl_or_testBit b ys (x ||| y)]
    simp [Nat.testBit_or, Bool.or_assoc]

theorem testBit_of_mem_of_foldl_and (b l0 x : Nat) (ls : List Nat)
    (hx : x ∈ l0 :: ls)
    (hA : (ls.foldl (· &&& ·) l0).testBit b = true) :
    x.testBit b = true := by
  rw [foldl_and_testBit, Bool.and_eq_true] at hA
  rcases List.mem_cons.1 hx with rfl | hx
  · exact hA.1
  · have hall := hA.2
    rw [List.all_eq_true] at hall
    simpa using hall x hx

theorem foldl_or_testBit_of_mem (b l0 x : Nat) (ls : List Nat)
    (hx : x ∈ l0 :: ls) (hb : x.testBit b = true) :
    (ls.foldl (· ||| ·) l0).testBit b = true := by
  rw [foldl_or_testBit]
  rcases List.mem_cons.1 hx with rfl | hx
  · simp [hb]
  · have hany : ls.any (fun y => y.testBit b) = true :=
      List.any_eq_true.2 ⟨x, hx, by simp [hb]⟩
    simp [hany]

theorem foldl_or_eq_and_of_agree (b l0 : Nat) (ls : List Nat)
    (h : ∀ x ∈ l0 :: ls, x.testBit b = (ls.foldl (· &&& ·) l0).testBit b) :
    (ls.foldl (· ||| ·) l0).testBit b
      = (ls.foldl (· &&& ·) l0).testBit b := by
  cases hA : (ls.foldl (· &&& ·) l0).testBit b
  · rw [foldl_or_testBit]
    have hr := h l0 (List.mem_cons_self l0 ls)
    rw [hA] at hr
    have hany : ls.any (fun y => y.testBit b) = false := by
      rw [List.any_eq_false]
      intro x hx
      have hx2 := h x (List.mem_cons_of_mem l0 hx)
      rw [hA] at hx2
      simp [hx2]
    simp [hr, hany]
  · have hr := h l0 (List.mem_cons_self l0 ls)
    rw [hA] at hr
    exact foldl_or_testBit_of_mem b l0 l0 ls (List.mem_cons_self l0 ls) hr

theorem foldl_testBit_false_of_lt (b W l0 : Nat) (ls : List Nat)
    (hbound : ∀ x ∈ l0 :: ls, x < 2 ^ W) (hb : W ≤ b) :
    (ls.foldl (· &&& ·) l0).testBit b = false ∧
    (ls.foldl (· ||| ·) l0).testBit b = false := by
  have hfalse : ∀ x ∈ l0 :: ls, x.testBit b = false := by
    intro x hx
    exact Nat.testBit_lt_two_pow
      (lt_of_lt_of_le (hbound x hx) (Nat.pow_le_pow_right (by norm_num) hb))
  constructor
  · rw [foldl_and_testBit]
    simp [hfalse l0 (List.mem_cons_self l0 ls)]
  · rw [foldl_or_testBit]
    have hany : ls.any (fun y => y.testBit b) = false := by
      rw [List.any_eq_false]
      intro x hx
      simp [hfalse x (List.mem_cons_of_mem l0 hx)]
    simp [hfalse l0 (List.mem_cons_self l0 ls), hany]

theorem maskbit_agree (xb Ab Ob rb : Bool)
    (hAx : Ab = true → xb = true)
    (hxO : xb = true → Ob = true)
    (hrx : rb = false → xb = false)
    (hrA : rb = false → Ab = false) :
    (xb && ((Ob ^^ Ab) ^^ rb)) = (Ab && ((Ob ^^ Ab) ^^ rb)) := by
  cases rb <;> cases Ab <;> cases Ob <;> cases xb <;>
    first
      | rfl
      | exact absurd (hrx rfl) (by decide)
      | exact absurd (hAx rfl) (by decide)
      | exact absurd (hxO rfl) (by decide)

theorem maskbit_range (Ab Ob rb : Bool)
    (hrA : rb = false → Ab = false)
    (hrO : rb = false → Ob = false) :
    (((Ob ^^ Ab) ^^ rb) && rb) = ((Ob ^^ Ab) ^^ rb) := by
  cases rb <;> cases Ab <;> cases Ob <;>
    first
      | rfl
      | exact absurd (hrA rfl) (by decide)
      | exact absurd (hrO rfl) (by decide)

theorem maskbit_greatest (mb Ab Ob rb : Bool)
    (hmr : mb = true → rb = true)
    (hOA : mb = true → Ob = Ab) :
    (mb && ((Ob ^^ Ab) ^^ rb)) = mb := by
  cases mb <;> cases Ab <;> cases Ob <;> cases rb <;>
    first
      | rfl
      | exact absurd (hmr rfl) (by decide)
      | exact absurd (hOA rfl) (by decide)

theorem filter_mask_core (l0 : Nat) (ls : List Nat) (W : Nat)
    (hbound : ∀ x ∈ l0 :: ls, x < 2 ^ W) :
    (∀ x ∈ l0 :: ls,
        x &&& ((ls.foldl (· ||| ·) l0 ^^^ ls.foldl (· &&& ·) l0)
            ^^^ (2 ^ W - 1))
          = ls.foldl (· &&& ·) l0
              &&& ((ls.foldl (· ||| ·) l0 ^^^ ls.foldl (· &&& ·) l0)
                ^^^ (2 ^ W - 1))) ∧
    (((ls.foldl (· ||| ·) l0 ^^^ ls.foldl (· &&& ·) l0) ^^^ (2 ^ W - 1))
        &&& (2 ^ W - 1)
      = (ls.foldl (· ||| ·) l0 ^^^ ls.foldl (· &&& ·) l0) ^^^ (2 ^ W - 1)) ∧
    (∀ m, m &&& (2 ^ W - 1) = m →
        (∀ x ∈ l0 :: ls, x &&& m = ls.foldl (· &&& ·) l0 &&& m) →
        m &&& ((ls.foldl (· ||| ·) l0 ^^^ ls.foldl (· &&& ·) l0)
            ^^^ (2 ^ W - 1)) = m) := by
  refine ⟨?_, ?_, ?_⟩
  · intro x hx
    apply Nat.eq_of_testBit_eq
    intro b
    simp only [Nat.testBit_and, Nat.testBit_xor, Nat.testBit_two_pow_sub_one]
    apply maskbit_agree
    · intro hAb
      exact testBit_of_mem_of_foldl_and b l0 x ls hx hAb
    · intro hxb
      exact foldl_or_testBit_of_mem b l0 x ls hx hxb
    · intro hrb
      have hb' : ¬ b < W := by simpa using hrb
      exact Nat.testBit_lt_two_pow
        (lt_of_lt_of_le (hbound x hx)
          (Nat.pow_le_pow_right (by norm_num) (by omega)))
    · intro hrb
      have hb' : ¬ b < W := by simpa using hrb
      exact (foldl_testBit_false_of_lt b W l0 ls hbound (by omega)).1
  · apply Nat.eq_of_testBit_eq
    intro b
    simp only [Nat.testBit_and, Nat.testBit_xor, Nat.testBit_two_pow_sub_one]
    apply maskbit_range
    · intro hrb
      have hb' : ¬ b < W := by simpa using hrb
      exact (foldl_testBit_false_of_lt b W l0 ls hbound (by omega)).1
    · intro hrb
      have hb' : ¬ b < W := by simpa using hrb
      exact (foldl_testBit_false_of_lt b W l0 ls hbound (by omega)).2
  · intro m hm1 hm2
    apply Nat.eq_of_testBit_eq
    intro b
    simp only [Nat.testBit_and, Nat.testBit_xor, Nat.testBit_two_pow_sub_one]
    apply maskbit_greatest
    · intro hmb
      have h1 := congrArg (fun t => t.testBit b) hm1
      simp only [Nat.testBit_and, Nat.testBit_two_pow_sub_one] at h1
      rw [hmb] at h1
      simpa using h1
    · intro hmb
      apply foldl_or_eq_and_of_agree
      intro x hx
      have hx2 := congrArg (fun t => t.testBit b) (hm2 x hx)
      simp only [Nat.testBit_and] at hx2
      rw [hmb] at hx2
      simpa using hx2

theorem block_receive_go_spec (n : Nat) :
    ∀ (q : List (List Nat)) (acc res : List Nat),
      block_receive_go n q acc = Except.ok res →
      ∃ k, k ≤ q.length ∧
        res = acc ++ ((q.take k).map (fun r => r.drop 1)).flatten ∧
        n ≤ res.length
  | [], acc, res => by
    intro h
    unfold block_receive_go at h
    by_cases hl : acc.length < n
    · rw [if_pos hl] at h
      exact absurd h (by simp)
    · rw [if_neg hl] at h
      obtain rfl : acc = res := by simpa using h
      exact ⟨0, by simp, by simp, by omega⟩
  | r :: rest, acc, res => by
    intro h
    unfold block_receive_go at h
    by_cases hl : acc.length < n
    · rw [if_pos hl] at h
      obtain ⟨k, hk, hres, hlen⟩ :=
        block_receive_go_spec n rest (acc ++ r.drop 1) res h
      refine ⟨k + 1, by simpa using Nat.succ_le_succ hk, ?_, hlen⟩
      simp [hres]
    · rw [if_neg hl] at h
      obtain rfl : acc = res := by simpa using h
      exact ⟨0, by simp, by simp, by omega⟩

theorem block_receive_go_exact (n : Nat) :
    ∀ (q : List (List Nat)) (acc res : List Nat),
      acc.length ≤ n →
      (∃ k, k ≤ q.length ∧
        acc.length + (((q.take k).map (fun r => r.drop 1)).flatten).length = n) →
      block_receive_go n q acc = Except.ok res →
      res.length = n
  | [], acc, res => by
    intro hle hex h
    unfold block_receive_go at h
    by_cases hl : acc.length < n
    · rw [if_pos hl] at h
      exact absurd h (by simp)
    · rw [if_neg hl] at h
      obtain rfl : acc = res := by simpa using h
      omega
  | r :: rest, acc, res => by
    intro hle hex h
    unfold block_receive_go at h
    by_cases hl : acc.length < n
    · rw [if_pos hl] at h
      obtain ⟨k, hk, hsum⟩ := hex
      cases k with
      | zero =>
        simp at hsum
        omega
      | succ k' =>
        have hsum' : (acc ++ r.drop 1).length
            + (((rest.take k').map (fun r => r.drop 1)).flatten).length = n := by
          simp at hsum ⊢
          omega
        refine block_receive_go_exact n rest (acc ++ r.drop 1) res ?_
          ⟨k', by simpa using Nat.le_of_succ_le_succ hk, hsum'⟩ h
        omega
    · rw [if_neg hl] at h
      obtain rfl : acc = res := by simpa using h
      omega

/-! ## Claims -/

/-- C2 counterexample: with `totalLength = 3` and a single queued entry
whose stripped payload has 4 bytes, `block_receive` succeeds but returns 4
bytes, not exactly 3 — the final fragment is appended whole, overshooting
the requested total. -/
theorem C2_block_receive_counterexample :
    block_receive 3 [[0xFF, 1, 2, 3, 4]] = Except.ok [1, 2, 3, 4] ∧
    ([1, 2, 3, 4] : List Nat).length ≠ 3 :=
  ⟨rfl, by decide⟩

/-- C2 (amended): a successful `blockReceive(totalLength)` returns the
concatenation, in arrival order, of the stripped payloads of the entries it
popped (a prefix of the queue), and its length is at least `totalLength`;
it is exactly `totalLength` whenever the stripped lengths of some queue
prefix sum to exactly `totalLength` — but a final uneven fragment is
appended whole, so the result can overshoot. -/
theorem C2_block_receive_amended (n : Nat) (q : List (List Nat))
    (res : List Nat) (h : block_receive n q = Except.ok res) :
    (∃ k, k ≤ q.length ∧
      res = ((q.take k).map (fun r => r.drop 1)).flatten ∧
      n ≤ res.length) ∧
    ((∃ k, k ≤ q.length ∧
        (((q.take k).map (fun r => r.drop 1)).flatten).length = n) →
      res.length = n) := by
  constructor
  · obtain ⟨k, hk, hres, hlen⟩ := block_receive_go_spec n q [] res h
    exact ⟨k, hk, by simpa using hres, hlen⟩
  · intro ⟨k, hk, hsum⟩
    exact block_receive_go_exact n q [] res (by simp)
      ⟨k, hk, by simpa using hsum⟩ h

/-- Witness for C2 (amended) at a concrete run: two uneven fragments of
stripped sizes 2 and 1 reassemble to exactly 3 bytes. -/
theorem C2_block_receive_witness :
    (∃ k, k ≤ ([[0xFF, 1, 2], [0xAA, 3]] : List (List Nat)).length ∧
      ([1, 2, 3] : List Nat)
        = ((([[0xFF, 1, 2], [0xAA, 3]] : List (List Nat)).take k).map
            (fun r => r.drop 1)).flatten ∧
      3 ≤ ([1, 2, 3] : List Nat).length) ∧
    ((∃ k, k ≤ ([[0xFF, 1, 2], [0xAA, 3]] : List (List Nat)).length ∧
        (((([[0xFF, 1, 2], [0xAA, 3]] : List (List Nat)).take k).map
            (fun r => r.drop 1)).flatten).length = 3) →
      ([1, 2, 3] : List Nat).length = 3) :=
  C2_block_receive_amended 3 [[0xFF, 1, 2], [0xAA, 3]] [1, 2, 3] rfl

/-- C3: on a length-prefixed (non-stream) transport, `processResponse`
fails with `FrameSizeError` exactly when the raw byte count differs from the
declared length; when the call does not fail it appends one record to the
single queue selected by the first byte (≥ 0xFE response, 0xFD event,
0xFC service request, < 0xFC sample) and leaves the other three queues
unchanged. -/
theorem C3_processResponse_dispatch (response : List Nat)
    (length counter now : Nat) (st : XcpState) :
    ((processResponse false response length counter now st).2
        = some PErr.frameSizeError ↔ response.length ≠ length) ∧
    (∀ st', processResponse false response length counter now st = (st', none) →
      ∃ pid tail, response = pid :: tail ∧
        ((0xFE ≤ pid ∧
            st'.resQueue = st.resQueue ++ [response] ∧
            st'.evQueue = st.evQueue ∧
            st'.servQueue = st.servQueue ∧
            st'.daqQueue = st.daqQueue) ∨
         (pid = 0xFD ∧
            st'.evQueue = st.evQueue ++ [response] ∧
            st'.resQueue = st.resQueue ∧
            st'.servQueue = st.servQueue ∧
            st'.daqQueue = st.daqQueue) ∨
         (pid = 0xFC ∧
            st'.servQueue = st.servQueue ++ [response] ∧
            st'.resQueue = st.resQueue ∧
            st'.evQueue = st.evQueue ∧
            st'.daqQueue = st.daqQueue) ∨
         (pid < 0xFC ∧
            (∃ ts, st'.daqQueue
                = st.daqQueue ++ [(response, counter, length, ts)]) ∧
            st'.resQueue = st.resQueue ∧
            st'.evQueue = st.evQueue ∧
            st'.servQueue = st.servQueue))) := by
  constructor
  · by_cases hL : response.length = length
    · cases response with
      | nil =>
        have hL' : 0 = length := by simpa using hL
        simp [processResponse, ← hL']
      | cons pid tail =>
        have hL' : tail.length + 1 = length := by simpa using hL
        by_cases h1 : 0xFC ≤ pid
        · by_cases h2 : 0xFE ≤ pid
          · simp [processResponse, hL', h1, h2]
          · by_cases h3 : pid = 0xFD
            · simp [processResponse, hL', h1, h2, h3]
            · have h4 : pid = 0xFC := by omega
              simp [processResponse, hL', h1, h2, h3, h4]
        · simp [processResponse, hL', h1]
    · simp [processResponse, hL]
  · intro st' hEq
    have hst : st' = (processResponse false response length counter now st).1 := by
      rw [hEq]
    have hnone : (processResponse false response length counter now st).2
        = none := by
      rw [hEq]
    subst hst
    cases response with
    | nil =>
      exfalso
      by_cases hL : (0 : Nat) = length
      · simp [processResponse, ← hL] at hnone
      · simp [processResponse, hL] at hnone
    | cons pid tail =>
      by_cases hL : tail.length + 1 = length
      · refine ⟨pid, tail, rfl, ?_⟩
        by_cases h1 : 0xFC ≤ pid
        · by_cases h2 : 0xFE ≤ pid
          · exact Or.inl ⟨h2, by simp [processResponse, hL, h1, h2],
              by simp [processResponse, hL, h1, h2],
              by simp [processResponse, hL, h1, h2],
              by simp [processResponse, hL, h1, h2]⟩
          · by_cases h3 : pid = 0xFD
            · exact Or.inr (Or.inl ⟨h3,
                by simp [processResponse, hL, h1, h2, h3],
                by simp [processResponse, hL, h1, h2, h3],
                by simp [processResponse, hL, h1, h2, h3],
                by simp [processResponse, hL, h1, h2, h3]⟩)
            · have h4 : pid = 0xFC := by omega
              exact Or.inr (Or.inr (Or.inl ⟨h4,
                by simp [processResponse, hL, h1, h2, h3, h4],
                by simp [processResponse, hL, h1, h2, h3, h4],
                by simp [processResponse, hL, h1, h2, h3, h4],
                by simp [processResponse, hL, h1, h2, h3, h4]⟩))
        · refine Or.inr (Or.inr (Or.inr ⟨by omega,
            ⟨if st.create_daq_timestamps then now else 0, ?_⟩, ?_, ?_, ?_⟩))
          all_goals simp [processResponse, hL, h1]
      · exfalso
        simp [processResponse, hL] at hnone

/-- Witness for C3: a concrete event PDU [0xFD, 1] with matching declared
length 2 is appended to the event queue alone. -/
theorem C3_processResponse_witness :
    ∃ pid tail, ([0xFD, 1] : List Nat) = pid :: tail ∧
      ((0xFE ≤ pid ∧
          eventWitnessState.resQueue = initState.resQueue ++ [[0xFD, 1]] ∧
          eventWitnessState.evQueue = initState.evQueue ∧
          eventWitnessState.servQueue = initState.servQueue ∧
          eventWitnessState.daqQueue = initState.daqQueue) ∨
       (pid = 0xFD ∧
          eventWitnessState.evQueue = initState.evQueue ++ [[0xFD, 1]] ∧
          eventWitnessState.resQueue = initState.resQueue ∧
          eventWitnessState.servQueue = initState.servQueue ∧
          eventWitnessState.daqQueue = initState.daqQueue) ∨
       (pid = 0xFC ∧
          eventWitnessState.servQueue = initState.servQueue ++ [[0xFD, 1]] ∧
          eventWitnessState.resQueue = initState.resQueue ∧
          eventWitnessState.evQueue = initState.evQueue ∧
          eventWitnessState.daqQueue = initState.daqQueue) ∨
       (pid < 0xFC ∧
          (∃ ts, eventWitnessState.daqQueue
              = initState.daqQueue ++ [([0xFD, 1], 7, 2, ts)]) ∧
          eventWitnessState.resQueue = initState.resQueue ∧
          eventWitnessState.evQueue = initState.evQueue ∧
          eventWitnessState.servQueue = initState.servQueue)) :=
  (C3_processResponse_dispatch [0xFD, 1] 2 7 0 initState).2
    eventWitnessState rfl

/-- C9 counterexample: a CAN frame with an empty payload makes the listener
iteration fail — `processResponse` reaches `response[0]` and raises
`IndexError`, which nothing in `Can.listen` catches, so the failure
propagates out of the iteration and aborts the listener thread. -/
theorem C9_listener_empty_frame_counterexample :
    (listen_step (some []) 0 initState).2 = some PErr.indexError := by
  decide

/-- C9 (amended): every frame read by the CAN listener is forwarded to
`processResponse` with counter 0 and declared length equal to the payload's
actual length, so the `FrameSizeError` branch is unreachable from the
listener loop; and for every received frame with a NON-EMPTY payload the
iteration completes without failure.  (A frame with an empty payload
instead raises `IndexError`, which does propagate — see the
counterexample.) -/
theorem C9_listener_forwarding (frame : Option (List Nat)) (now : Nat)
    (st : XcpState) :
    ((listen_step frame now st).2 ≠ some PErr.frameSizeError) ∧
    (∀ payload, frame = some payload → payload ≠ [] →
      (listen_step frame now st).2 = none) := by
  have hkey : ∀ (payload : List Nat), payload ≠ [] →
      (listen_step (some payload) now st).2 = none := by
    intro payload hne
    cases payload with
    | nil => exact absurd rfl hne
    | cons pid tail =>
      by_cases h1 : 0xFC ≤ pid
      · by_cases h2 : 0xFE ≤ pid
        · simp [listen_step, dataReceived, processResponse, h1, h2]
        · by_cases h3 : pid = 0xFD
          · simp [listen_step, dataReceived, processResponse, h1, h2, h3]
          · have h4 : pid = 0xFC := by omega
            simp [listen_step, dataReceived, processResponse, h1, h2, h3, h4]
      · simp [listen_step, dataReceived, processResponse, h1]
  constructor
  · cases frame with
    | none => simp [listen_step]
    | some payload =>
      cases payload with
      | nil => simp [listen_step, dataReceived, processResponse]
      | cons pid tail =>
        rw [hkey (pid :: tail) (by simp)]
        simp
  · intro payload hf hne
    subst hf
    exact hkey payload hne

/-- Witness for C9 (amended): a concrete one-byte sample frame is processed
without any failure escaping the iteration. -/
theorem C9_listener_witness :
    ((listen_step (some [0x01]) 5 initState).2 ≠ some PErr.frameSizeError) ∧
    (listen_step (some [0x01]) 5 initState).2 = none :=
  ⟨(C9_listener_forwarding (some [0x01]) 5 initState).1,
   (C9_listener_forwarding (some [0x01]) 5 initState).2 [0x01] rfl
     (by decide)⟩

/-- C10: `processResponse` records the received-frame counter before the
length check, so the returned state carries the new counter value in every
outcome, the `FrameSizeError` one included. -/
theorem C10_counterReceived_updated_first (use_tcp : Bool)
    (response : List Nat) (length counter now : Nat) (st : XcpState) :
    ((processResponse use_tcp response length counter now st).1).counterReceived
      = counter := by
  unfold processResponse
  dsimp only
  repeat' split <;> try rfl

/-- C4 counterexample: for the input [0], `calculateFilter` returns mask
0x7FF, yet the strictly smaller mask 0 also lies within the standard
addressable range and satisfies `(id &&& mask) = (filter &&& mask)` for
every input id — so the returned mask is not the minimal such mask (it is
the greatest one). -/
theorem C4_calculateFilter_counterexample :
    calculateFilter [0] = some (0, 0x7FF) ∧
    ((0 : Nat) &&& 0x7FF = 0) ∧
    (∀ i ∈ ([0] : List Nat), stripIdentifier i &&& 0 = 0 &&& 0) ∧
    (0 : Nat) < 0x7FF := by
  decide

/-- C4 (amended): for every non-empty list of valid raw CAN identifiers,
`calculateFilter` returns `(filter, mask)` such that
`(strippedId &&& mask) = (filter &&& mask)` for every identifier in the
list; the mask lies within the addressable range (0x7FF when no identifier
is extended, 0x1FFFFFFF when some identifier is); and it is the GREATEST
such mask under bit inclusion — equivalently, the mask admitting the fewest
identifiers — rather than the minimal one: every mask within the range that
satisfies the guarantee is a sub-mask of the returned mask. -/
theorem C4_calculateFilter_greatest_mask (ids : List Nat)
    (cfilter cmask : Nat)
    (hne : calculateFilter ids = some (cfilter, cmask))
    (hvalid : ∀ i ∈ ids,
      if isExtendedIdentifier i then
        stripIdentifier i ≤ MAX_29_BIT_IDENTIFIER
      else
        stripIdentifier i ≤ MAX_11_BIT_IDENTIFIER) :
    (∀ i ∈ ids, stripIdentifier i &&& cmask = cfilter &&& cmask) ∧
    (cmask &&& (if ids.any (fun i => isExtendedIdentifier i)
        then 0x1FFFFFFF else 0x7FF) = cmask) ∧
    (∀ m, m &&& (if ids.any (fun i => isExtendedIdentifier i)
          then 0x1FFFFFFF else 0x7FF) = m →
      (∀ i ∈ ids, stripIdentifier i &&& m = cfilter &&& m) →
      m &&& cmask = m) := by
  cases ids with
  | nil => simp [calculateFilter] at hne
  | cons i0 irest =>
    obtain ⟨W, hrange, hbound⟩ :
        ∃ W, ((if (i0 :: irest).any (fun i => isExtendedIdentifier i)
            then (0x1FFFFFFF : Nat) else 0x7FF) = 2 ^ W - 1) ∧
          ∀ x ∈ (i0 :: irest).map stripIdentifier, x < 2 ^ W := by
      by_cases hany : (i0 :: irest).any (fun i => isExtendedIdentifier i)
          = true
      · refine ⟨29, by rw [if_pos hany]; norm_num, ?_⟩
        intro x hx
        obtain ⟨i, hi, rfl⟩ := List.mem_map.1 hx
        have hv := hvalid i hi
        by_cases he : isExtendedIdentifier i = true
        · rw [if_pos he] at hv
          have h29 : MAX_29_BIT_IDENTIFIER = 2 ^ 29 - 1 := by decide
          omega
        · rw [if_neg he] at hv
          have h11 : MAX_11_BIT_IDENTIFIER = 2 ^ 11 - 1 := by decide
          have h2 : (2 : Nat) ^ 11 - 1 < 2 ^ 29 := by norm_num
          omega
      · refine ⟨11, by rw [if_neg hany]; norm_num, ?_⟩
        intro x hx
        obtain ⟨i, hi, rfl⟩ := List.mem_map.1 hx
        have hnotext : ¬ isExtendedIdentifier i = true := by
          intro hc
          exact hany (List.any_eq_true.2 ⟨i, hi, by simp [hc]⟩)
        have hv := hvalid i hi
        rw [if_neg hnotext] at hv
        have h11 : MAX_11_BIT_IDENTIFIER = 2 ^ 11 - 1 := by decide
        omega
    simp only [calculateFilter, List.map_cons, Option.some.injEq,
      Prod.mk.injEq] at hne
    obtain ⟨hf, hm⟩ := hne
    rw [hrange] at hm
    subst hf
    subst hm
    obtain ⟨hpart1, hpart2, hpart3⟩ :=
      filter_mask_core (stripIdentifier i0) (irest.map stripIdentifier) W
        (by simpa using hbound)
    refine ⟨?_, ?_, ?_⟩
    · intro i hi
      exact hpart1 (stripIdentifier i) (by
        simpa using List.mem_map.2 ⟨i, hi, rfl⟩)
    · rw [hrange]
      exact hpart2
    · intro m hm1 hm2
      rw [hrange] at hm1
      refine hpart3 m hm1 ?_
      intro x hx
      obtain ⟨i, hi, rfl⟩ := List.mem_map.1 (show x ∈ (i0 :: irest).map
        stripIdentifier by simpa using hx)
      exact hm2 i hi

/-- Witness for C4 (amended) on the concrete standard identifiers
[0x100, 0x101]: filter 0x100, mask 0x7FE. -/
theorem C4_calculateFilter_witness :
    (∀ i ∈ ([0x100, 0x101] : List Nat),
      stripIdentifier i &&& 0x7FE = 0x100 &&& 0x7FE) ∧
    ((0x7FE : Nat) &&& (if ([0x100, 0x101] : List Nat).any
        (fun i => isExtendedIdentifier i) then 0x1FFFFFFF else 0x7FF)
      = 0x7FE) ∧
    (∀ m, m &&& (if ([0x100, 0x101] : List Nat).any
          (fun i => isExtendedIdentifier i) then 0x1FFFFFFF else 0x7FF) = m →
      (∀ i ∈ ([0x100, 0x101] : List Nat),
        stripIdentifier i &&& m = 0x100 &&& m) →
      m &&& 0x7FE = m) :=
  C4_calculateFilter_greatest_mask [0x100, 0x101] 0x100 0x7FE (by decide)
    (by decide)

/-- C5: standard identifiers up to 2047 construct with the extended flag
clear and the id unchanged; values up to 536870911 with the extended marker
set construct with the flag set and the marker stripped; any raw value whose
stripped id exceeds the applicable bound fails with
`IdentifierOutOfRangeError`. -/
theorem C5_identifier_construction :
    (∀ i : Nat, i ≤ 2047 →
      Identifier.make i = some { raw_id := i, id := i, is_extended := false }) ∧
    (∀ i : Nat, i ≤ 536870911 →
      Identifier.make (i ||| 0x80000000) =
        some { raw_id := i ||| 0x80000000, id := i, is_extended := true }) ∧
    (∀ raw : Nat,
      stripIdentifier raw >
        (if isExtendedIdentifier raw then 536870911 else 2047) →
      Identifier.make raw = none) := by
  refine ⟨?_, ?_, ?_⟩
  · intro i hi
    have h31 : i < 2 ^ 31 := lt_of_le_of_lt hi (by norm_num)
    have hmax : ¬ i > MAX_11_BIT_IDENTIFIER := by
      have h11 : MAX_11_BIT_IDENTIFIER = 2047 := by decide
      omega
    simp [Identifier.make, isExtended_false_of_lt h31, strip_of_lt h31, hmax]
  · intro i hi
    have h31 : i < 2 ^ 31 := lt_of_le_of_lt hi (by norm_num)
    have h29 : MAX_29_BIT_IDENTIFIER = 536870911 := by decide
    have hmax : ¬ i > MAX_29_BIT_IDENTIFIER := by omega
    rw [show (0x80000000 : Nat) = CAN_EXTENDED_ID from rfl]
    simp [Identifier.make, isExtended_true_of_lor, strip_of_lor h31, hmax]
  · intro raw hgt
    by_cases hext : isExtendedIdentifier raw = true
    · rw [if_pos hext] at hgt
      have h29 : MAX_29_BIT_IDENTIFIER = 536870911 := by decide
      simp [Identifier.make, hext,
        show stripIdentifier raw > MAX_29_BIT_IDENTIFIER by omega]
    · rw [if_neg hext] at hgt
      have h11 : MAX_11_BIT_IDENTIFIER = 2047 := by decide
      simp [Identifier.make, hext,
        show stripIdentifier raw > MAX_11_BIT_IDENTIFIER by omega]

/-- Witness for C5 at concrete inputs 5, `7 | 0x80000000` and 2048. -/
theorem C5_identifier_witness :
    Identifier.make 5 = some { raw_id := 5, id := 5, is_extended := false } ∧
    Identifier.make (7 ||| 0x80000000) =
      some { raw_id := 7 ||| 0x80000000, id := 7, is_extended := true } ∧
    Identifier.make 2048 = none :=
  ⟨C5_identifier_construction.1 5 (by decide),
   C5_identifier_construction.2.1 7 (by decide),
   C5_identifier_construction.2.2 2048 (by decide)⟩

/-- C6: `setDLC` returns lengths 0..8 unchanged, rounds 9..64 up to the
smallest CAN-FD DLC, and fails with `ValueError` for negative or over-64
lengths. -/
theorem C6_setDLC_mapping :
    (∀ l : Int, 0 ≤ l → l ≤ 8 → setDLC l = some (some l)) ∧
    (∀ l : Int, 8 < l → l ≤ 64 →
      ∃ d, setDLC l = some (some d) ∧ d ∈ FD_DLCS ∧ l ≤ d ∧
        ∀ d' ∈ FD_DLCS, l ≤ d' → d ≤ d') ∧
    (∀ l : Int, l < 0 ∨ 64 < l → setDLC l = none) := by
  refine ⟨?_, ?_, ?_⟩
  · intro l h0 h8
    interval_cases l <;> decide
  · intro l h8 h64
    interval_cases l <;>
      first
        | exact ⟨12, by decide⟩
        | exact ⟨16, by decide⟩
        | exact ⟨20, by decide⟩
        | exact ⟨24, by decide⟩
        | exact ⟨32, by decide⟩
        | exact ⟨48, by decide⟩
        | exact ⟨64, by decide⟩
  · intro l hl
    rcases hl with hl | hl
    · unfold setDLC
      rw [if_pos hl]
    · unfold setDLC
      rw [if_neg (by omega), if_neg (by omega), if_neg (by omega)]

/-- C1: a popped response whose first byte is the ERROR PID, issued for a
command other than SYNCH, makes `request` fail with the second byte as the
protocol error code; in every other case `request` returns the payload with
the leading classification byte stripped. -/
theorem C1_request_error_classification (cmd : Cmd) (data : List Nat)
    (st : XcpState) (pid : Nat) (tl : List Nat) (rest : List (List Nat))
    (hq : st.resQueue = (pid :: tl) :: rest) :
    (pid = ERROR_PID → cmd.name ≠ "SYNCH" →
      ∀ code tl', tl = code :: tl' →
        (request cmd data st).1 = Except.error (XcpErr.protocolError code)) ∧
    (¬ (pid = ERROR_PID ∧ cmd.name ≠ "SYNCH") →
      (request cmd data st).1 = Except.ok tl) := by
  constructor
  · intro hpid hname code tl' htl
    subst htl
    unfold request prepare_request
    dsimp only
    rw [hq]
    dsimp only
    rw [if_pos ⟨hpid, hname⟩]
  · intro hc
    unfold request prepare_request
    dsimp only
    rw [hq]
    dsimp only
    rw [if_neg hc]

/-- Witness for C1: a concrete ERROR response to a non-SYNCH command fails
with the second byte as the code, and the same response to SYNCH is returned
stripped instead. -/
theorem C1_request_witness :
    (request { code := 0xEE, name := "TEST" } []
        { initState with resQueue := [[0xFF, 0x22]] }).1
      = Except.error (XcpErr.protocolError 0x22) ∧
    (request { code := 0xEE, name := "SYNCH" } []
        { initState with resQueue := [[0xFF, 0x22]] }).1
      = Except.ok [0x22] :=
  ⟨(C1_request_error_classification { code := 0xEE, name := "TEST" } []
      { initState with resQueue := [[0xFF, 0x22]] } 0xFF [0x22] [] rfl).1
      rfl (by decide) 0x22 [] rfl,
   (C1_request_error_classification { code := 0xEE, name := "SYNCH" } []
      { initState with resQueue := [[0xFF, 0x22]] } 0xFF [0x22] [] rfl).2
      (by simp)⟩

/-- C7: the frame built by `_prepare_request` is the 16-bit length field
(counting the command bytes), the 16-bit send counter, the command bytes,
then the argument bytes; concretely, command byte 0xEE with arguments
CA FE BA BE at send counter 0 yields 05 00 00 00 EE CA FE BA BE. -/
theorem C7_prepare_request_frame_format :
    (∀ (cmd : Cmd) (data : List Nat) (c : Nat),
      (prepare_request cmd data c).1 =
        u16le ((to_bytes_be cmd.code (bit_length cmd.code / 8)).length
            + data.length)
          ++ u16le c
          ++ to_bytes_be cmd.code (bit_length cmd.code / 8)
          ++ data) ∧
    prepare_request { code := 0xEE, name := "TEST" } [0xCA, 0xFE, 0xBA, 0xBE] 0
      = ([0x05, 0x00, 0x00, 0x00, 0xEE, 0xCA, 0xFE, 0xBA, 0xBE], 1) := by
  constructor
  · intro cmd data c
    simp [prepare_request, headerPack, to_bytes_be_length]
  · norm_num [prepare_request, headerPack, u16le, bit_length, log2_238,
      to_bytes_be]

/-- C8: every `request` leaves the send counter at its old value plus one,
reduced mod 65536 — also on timeout, since the counter is bumped before the
wait; `block_request` does the same whenever it reaches the send (i.e. the
pre-send drain did not fail), and the counter stays inside 0..65535. -/
theorem C8_send_counter_mod_65536 (cmd : Cmd) (data : List Nat)
    (st : XcpState) :
    (((request cmd data st).2).counterSend = (st.counterSend + 1) % 65536) ∧
    (((request cmd data st).2).counterSend < 65536) ∧
    (∀ u stB, block_request cmd data st = (Except.ok u, stB) →
      stB.counterSend = (st.counterSend + 1) % 65536) ∧
    (st.counterSend < 65536 →
      ((block_request cmd data st).2).counterSend < 65536) := by
  have hreq : ((request cmd data st).2).counterSend
      = (st.counterSend + 1) % 65536 := by
    rw [request_counterSend, and_ffff_eq_mod]
  refine ⟨hreq, ?_, ?_, ?_⟩
  · rw [hreq]
    exact Nat.mod_lt _ (by norm_num)
  · intro u stB hEq
    have h2 : ((block_request cmd data st).2).counterSend = stB.counterSend := by
      rw [hEq]
    rcases block_request_counterSend cmd data st with ⟨_, hc⟩ | ⟨⟨e, he⟩, _⟩
    · rw [← h2, hc, and_ffff_eq_mod]
    · rw [hEq] at he
      simp at he
  · intro hlt
    rcases block_request_counterSend cmd data st with ⟨_, hc⟩ | ⟨_, hc⟩
    · rw [hc, and_ffff_eq_mod]
      exact Nat.mod_lt _ (by norm_num)
    · rw [hc]
      exact hlt

/-- Witness for C8: one concrete `request` (which times out on the empty
queue) and one concrete `block_request` both bump the counter from 7 to 8,
inside 0..65535. -/
theorem C8_send_counter_witness :
    ((request { code := 0xEE, name := "TEST" } []
        { initState with counterSend := 7 }).2).counterSend = 8 ∧
    ((request { code := 0xEE, name := "TEST" } []
        { initState with counterSend := 7 }).2).counterSend < 65536 ∧
    ({ initState with counterSend := 8 } : XcpState).counterSend = 8 ∧
    ((block_request { code := 0xEE, name := "TEST" } []
        { initState with counterSend := 7 }).2).counterSend < 65536 :=
  ⟨(C8_send_counter_mod_65536 { code := 0xEE, name := "TEST" } []
      { initState with counterSend := 7 }).1,
   (C8_send_counter_mod_65536 { code := 0xEE, name := "TEST" } []
      { initState with counterSend := 7 }).2.1,
   (C8_send_counter_mod_65536 { code := 0xEE, name := "TEST" } []
      { initState with counterSend := 7 }).2.2.1 ()
      { initState with counterSend := 8 } rfl,
   (C8_send_counter_mod_65536 { code := 0xEE, name := "TEST" } []
      { initState with counterSend := 7 }).2.2.2 (by decide)⟩

/-- Witness for C6 at concrete lengths 5, 9 and 65. -/
theorem C6_setDLC_witness :
    setDLC 5 = some (some 5) ∧
    (∃ d, setDLC 9 = some (some d) ∧ d ∈ FD_DLCS ∧ (9 : Int) ≤ d ∧
      ∀ d' ∈ FD_DLCS, (9 : Int) ≤ d' → d ≤ d') ∧
    setDLC 65 = none :=
  ⟨C6_setDLC_mapping.1 5 (by decide) (by decide),
   C6_setDLC_mapping.2.1 9 (by decide) (by decide),
   C6_setDLC_mapping.2.2 65 (Or.inr (by decide))⟩

end PyXcp
